import Mathlib

/-!
Shallow embedding of the auto-ranging ambient-light measurement controller of
the collectd plugin `envsensor.lightsensor` (file `envsensor/lightsensor.py`)
together with the sensor-driver helpers it relies on
(file `envsensor/_lightsensors.py`).

Modelling conventions:
* Python floats are modelled as exact rationals (`ℚ`);
* Python dicts are modelled as insertion-ordered association lists; `d[k]`
  is `dictGet`, `d[k] = v` is `dictInsert` (replace in place, else append);
* Python exceptions are explicit error values (`Except`); code that contains
  no handler is sequenced so that an error value short-circuits;
* the sensor driver object is an oracle (`Sensor`): `set_channel_mode` may
  fail depending on its arguments and the n-th `read_channels` call returns
  the oracle's n-th answer; the calls performed are collected in a trace.
-/

namespace Envsensor

/-- Python dict lookup `d[k]`: the first binding of the key, `none` standing
for a raised `KeyError`. -/
def dictGet {α β : Type} [DecidableEq α] (k : α) : List (α × β) → Option β
  | [] => none
  | kv :: rest => if kv.1 = k then some kv.2 else dictGet k rest

/-- Python dict assignment `d[k] = v`: if the key is present its binding is
replaced in place, otherwise the binding is appended at the end (insertion
order, as for a Python dict). -/
def dictInsert {α β : Type} [DecidableEq α] (d : List (α × β)) (k : α) (v : β) :
    List (α × β) :=
  if (dictGet k d).isSome then
    d.map (fun kv => if kv.1 = k then (k, v) else kv)
  else d ++ [(k, v)]

/-- Python `max` over a list; `none` stands for the `ValueError` raised on an
empty sequence. -/
def pyMax : List ℚ → Option ℚ
  | [] => none
  | x :: xs => some (xs.foldl max x)

/-- Python 3 `round` to an integer: round half to even. -/
def pyRound (q : ℚ) : ℤ :=
  if q - ⌊q⌋ < 1/2 then ⌊q⌋
  else if 1/2 < q - ⌊q⌋ then ⌊q⌋ + 1
  else if ⌊q⌋ % 2 = 0 then ⌊q⌋ else ⌊q⌋ + 1

/-- Sequencing of a Python loop that applies a fallible operation to every
element and stops at the first raised exception (used for list/dict
comprehensions over fallible expressions). -/
def exceptMap {E α β : Type} (f : α → Except E β) : List α → Except E (List β)
  | [] => Except.ok []
  | x :: xs =>
    match f x with
    | Except.error e => Except.error e
    | Except.ok y =>
      match exceptMap f xs with
      | Except.error e => Except.error e
      | Except.ok ys => Except.ok (y :: ys)

/-- Result of `read_channels()` for one channel, as described by the driver
contract in `lightsensor.py`. -/
structure MeasurementResult where
  value      : ℚ
  saturation : ℚ
  again      : ℚ
  itime      : ℚ
deriving DecidableEq

/-- The mapping returned by `read_channels()` (a Python dict keyed by channel
name). -/
abbrev Results := List (String × MeasurementResult)

/-- One entry of the list returned by `get_channel_modes()`: a set of channels
sharing one sensor setting plus the table mapping a relative total gain to an
`(analog gain, integration time)` pair.  A `gain_table` binding
`(k, a, t)` models the Python dict entry `k: (a, t)`. -/
structure ChannelGroup where
  channels   : List (String × Bool)
  gain_table : List (ℚ × ℚ × ℚ)
deriving DecidableEq

/-- The configuration fields of `lightsensor.py` that the controller reads
(`do_config` defaults: `GainMargin = 0.5`, `MaxSaturation = 0.9`; the other
three keys are optional). -/
structure Config where
  analogGain         : Option ℚ
  integrationTime    : Option ℚ
  maxIntegrationTime : Option ℚ
  gainMargin         : ℚ
  maxSaturation      : ℚ
deriving DecidableEq

/-- Errors that `Instance.__init__` (lines 107-132 of `lightsensor.py`) can
raise while processing the channel modes: the explicit
`RuntimeError('No supported settings match config given')` and the `KeyError`
raised by `group['gain_table'][1]` while building `min_itime`. -/
inductive InitError where
  | noSupportedSettings
  | keyOneMissing
deriving DecidableEq

/-- The gain-table filtering of `Instance.__init__`: keep only entries whose
analog gain equals `AnalogGain` (when configured), whose integration time
equals `IntegrationTime` (when configured) and whose integration time is at
most `MaxIntegrationTime` (when configured). -/
def filterGainTable (cfg : Config) (table : List (ℚ × ℚ × ℚ)) :
    List (ℚ × ℚ × ℚ) :=
  let t1 := match cfg.analogGain with
    | some a => table.filter (fun kv => decide (kv.2.1 = a))
    | none => table
  let t2 := match cfg.integrationTime with
    | some t => t1.filter (fun kv => decide (kv.2.2 = t))
    | none => t1
  match cfg.maxIntegrationTime with
  | some m => t2.filter (fun kv => decide (kv.2.2 ≤ m))
  | none => t2

/-- The channel-mode processing of `Instance.__init__`: filter every group's
gain table, raise `RuntimeError` if any filtered table is empty, then (while
building the `min_itime` dict) look up `group['gain_table'][1]` for every
group that has at least one channel, raising `KeyError` when key `1` is
missing.  On success the controller keeps the filtered groups. -/
def initGroups (cfg : Config) (modes : List ChannelGroup) :
    Except InitError (List ChannelGroup) :=
  let filtered := modes.map
    (fun g => { g with gain_table := filterGainTable cfg g.gain_table })
  if filtered.any (fun g => g.gain_table.isEmpty) then
    Except.error InitError.noSupportedSettings
  else if filtered.any
      (fun g => !g.channels.isEmpty && (dictGet (1 : ℚ) g.gain_table).isNone) then
    Except.error InitError.keyOneMissing
  else
    Except.ok filtered

/-- A Python exception observable during `Instance.measure()`: either an
exception raised by the sensor driver, or one of the builtin exceptions the
interpreter itself can raise in that code. -/
inductive PyErr (E : Type) where
  | fromSensor (e : E)
  | keyErr
  | idxErr
  | valueErr
  | zeroDiv
deriving DecidableEq

/-- Oracle model of a sensor driver object: `setModeErr n a t` is the
exception (if any) that `set_channel_mode(n, a, t)` raises, and `reads i`
is the outcome of the `i`-th `read_channels()` call of the current
`measure()` invocation. -/
structure Sensor (E : Type) where
  setModeErr : String → ℚ → ℚ → Option E
  reads      : ℕ → Except E Results

/-- One sensor transaction performed by the controller. -/
inductive SensorOp where
  | setMode (name : String) (again itime : ℚ)
  | read
deriving DecidableEq

/-- First loop of `Instance.measure()` (lines 139-142): for every group, apply
the entry of `gain_table` at key `1` to the first channel of the group.
Returns the trace of `set_channel_mode` calls and the exception, if one was
raised. -/
def estimatePass {E : Type} (s : Sensor E) :
    List ChannelGroup → List SensorOp × Option (PyErr E)
  | [] => ([], none)
  | g :: gs =>
    match g.channels.head? with
    | none => ([], some PyErr.idxErr)
    | some c =>
      match dictGet (1 : ℚ) g.gain_table with
      | none => ([], some PyErr.keyErr)
      | some p =>
        match s.setModeErr c.1 p.1 p.2 with
        | some e => ([SensorOp.setMode c.1 p.1 p.2], some (PyErr.fromSensor e))
        | none =>
          let rest := estimatePass s gs
          (SensorOp.setMode c.1 p.1 p.2 :: rest.1, rest.2)

/-- The list comprehension
`[results_estimate[n]['saturation'] for n in names]` of line 149. -/
def groupSats {E : Type} (re : Results) (g : ChannelGroup) :
    Except (PyErr E) (List ℚ) :=
  exceptMap
    (fun n =>
      match dictGet n re with
      | some r => Except.ok r.saturation
      | none => Except.error PyErr.keyErr)
    (g.channels.map Prod.fst)

/-- `extra_gain = 1. / max_saturation / (1 + self.config['GainMargin'])`
(line 150).  The two Python divisions can each raise `ZeroDivisionError`;
those cases are excluded before this is evaluated. -/
def extraGainOf (cfg : Config) (maxSat : ℚ) : ℚ := 1 / maxSat / (1 + cfg.gainMargin)

/-- Lines 151-155: `new_gains = [gain for gain in gain_table if gain <= extra_gain]`
and `new_gain = 1 if len(new_gains) == 0 else max(new_gains)`. -/
def newGainOf (cfg : Config) (maxSat : ℚ) (g : ChannelGroup) : ℚ :=
  (pyMax ((g.gain_table.map Prod.fst).filter
    (fun k => decide (k ≤ extraGainOf cfg maxSat)))).getD 1

/-- Body of the second loop of `Instance.measure()` (lines 147-158) for one
group, up to the `set_channel_mode` call: compute `max_saturation` over the
group's channels in the estimate results, the target `extra_gain`, the
selected key (`newGainOf`), and the table entry at the selected key.
Returns the first channel name and `(new_gain, again, itime)`. -/
def selectGain {E : Type} (cfg : Config) (re : Results) (g : ChannelGroup) :
    Except (PyErr E) (String × ℚ × ℚ × ℚ) :=
  match groupSats (E := E) re g with
  | Except.error e => Except.error e
  | Except.ok sats =>
    match pyMax sats with
    | none => Except.error PyErr.valueErr
    | some maxSat =>
      if maxSat = 0 then Except.error PyErr.zeroDiv
      else if (1 : ℚ) + cfg.gainMargin = 0 then Except.error PyErr.zeroDiv
      else
        match dictGet (newGainOf cfg maxSat g) g.gain_table with
        | none => Except.error PyErr.keyErr
        | some p =>
          match (g.channels.map Prod.fst).head? with
          | none => Except.error PyErr.idxErr
          | some name => Except.ok (name, newGainOf cfg maxSat g, p.1, p.2)

/-- Second loop of `Instance.measure()` (lines 147-158): select a gain per
group, apply it through `set_channel_mode`, and accumulate
`max_new_gain = max(max_new_gain, new_gain)` starting from `1`.  Returns the
trace of `set_channel_mode` calls and either the exception raised or the
final `max_new_gain`. -/
def gainSelectPass {E : Type} (s : Sensor E) (cfg : Config) (re : Results) :
    List ChannelGroup → ℚ → List SensorOp × Except (PyErr E) ℚ
  | [], acc => ([], Except.ok acc)
  | g :: gs, acc =>
    match selectGain (E := E) cfg re g with
    | Except.error e => ([], Except.error e)
    | Except.ok sel =>
      let op := SensorOp.setMode sel.1 sel.2.2.1 sel.2.2.2
      match s.setModeErr sel.1 sel.2.2.1 sel.2.2.2 with
      | some e => ([op], Except.error (PyErr.fromSensor e))
      | none =>
        let rest := gainSelectPass s cfg re gs (max acc sel.2.1)
        (op :: rest.1, rest.2)

/-- Body of the saturation-guard loop (lines 166-170) for one channel of the
refinement results: when its saturation exceeds `MaxSaturation` the entry is
replaced by `results_estimate[name]` (a missing estimate entry being a
`KeyError`), otherwise it is kept. -/
def guardChannel {E : Type} (cfg : Config) (re : Results)
    (nr : String × MeasurementResult) :
    Except (PyErr E) (String × MeasurementResult) :=
  if cfg.maxSaturation < nr.2.saturation then
    match dictGet nr.1 re with
    | some r0 => Except.ok (nr.1, r0)
    | none => Except.error PyErr.keyErr
  else Except.ok nr

/-- Saturation-guard loop of `Instance.measure()` (lines 166-170) over the
whole refinement-pass dict. -/
def saturationGuard {E : Type} (cfg : Config) (re res : Results) :
    Except (PyErr E) Results :=
  exceptMap (guardChannel (E := E) cfg re) res

/-- `Instance.measure()` (lines 137-171 of `lightsensor.py`): estimate pass at
gain 1, first `read_channels`, per-group gain selection, skip of the second
pass when `max_new_gain == 1`, otherwise second `read_channels` followed by
the saturation guard.  Returns the trace of sensor transactions together with
the returned dict or the raised exception. -/
def measure {E : Type} (s : Sensor E) (cfg : Config) (groups : List ChannelGroup) :
    List SensorOp × Except (PyErr E) Results :=
  match estimatePass s groups with
  | (tr1, some e) => (tr1, Except.error e)
  | (tr1, none) =>
    match s.reads 0 with
    | Except.error e => (tr1 ++ [SensorOp.read], Except.error (PyErr.fromSensor e))
    | Except.ok re =>
      match gainSelectPass s cfg re groups 1 with
      | (tr2, Except.error e) =>
        (tr1 ++ [SensorOp.read] ++ tr2, Except.error e)
      | (tr2, Except.ok maxNewGain) =>
        if maxNewGain = 1 then
          (tr1 ++ [SensorOp.read] ++ tr2, Except.ok re)
        else
          match s.reads 1 with
          | Except.error e =>
            (tr1 ++ [SensorOp.read] ++ tr2 ++ [SensorOp.read],
             Except.error (PyErr.fromSensor e))
          | Except.ok res =>
            (tr1 ++ [SensorOp.read] ++ tr2 ++ [SensorOp.read],
             saturationGuard cfg re res)

/-- The dict key `round(again * itime / min(itimes))` used by
`_gain_table_from_product` (an `int` in Python, compared against rational
gains elsewhere, hence cast into `ℚ`). -/
def keyOf (mn again itime : ℚ) : ℚ := ((pyRound (again * itime / mn) : ℤ) : ℚ)

/-- Inner loop of `_gain_table_from_product` (file `_lightsensors.py`): for a
fixed integration time, insert one dict entry
`round(again * itime / min(itimes)): (again, itime)` per analog gain. -/
def productRow (agains : List ℚ) (mn itime : ℚ) (acc : List (ℚ × ℚ × ℚ)) :
    List (ℚ × ℚ × ℚ) :=
  agains.foldl
    (fun acc2 again => dictInsert acc2 (keyOf mn again itime) (again, itime))
    acc

/-- The helper `_gain_table_from_product(agains, itimes)` of
`_lightsensors.py`: a dict comprehension whose outer loop runs over
`sorted(itimes)` and whose inner loop runs over `agains`, keyed by the rounded
relative total gain.  (Python's `min` would raise on an empty `itimes`; the
drivers never pass one.) -/
def gainTableFromProduct (agains itimes : List ℚ) : List (ℚ × ℚ × ℚ) :=
  match itimes with
  | [] => []
  | t :: ts =>
    let mn := ts.foldl min t
    (List.insertionSort (fun a b => a ≤ b) (t :: ts)).foldl
      (fun acc itime => productRow agains mn itime acc) []

/-! ### Concrete driver data from `envsensor/_lightsensors.py` -/

/-- `APDS_9250.INT_TIME = 0.4` (the driver always integrates for 400 ms). -/
def APDS_9250_INT_TIME : ℚ := 2/5

/-- `APDS_9250.itime_table`: integration time to `(reg value, max count)`. -/
def APDS_9250_itime_table : List (ℚ × ℕ × ℕ) :=
  [(2/5, 0 <<< 4, (1 <<< 20) - 1), (1/5, 1 <<< 4, (1 <<< 19) - 1),
   (1/10, 2 <<< 4, (1 <<< 18) - 1), (1/20, 3 <<< 4, (1 <<< 17) - 1),
   (1/40, 4 <<< 4, (1 <<< 16) - 1), (1/320, 5 <<< 4, (1 <<< 13) - 1)]

/-- The single channel group of `APDS_9250.channel_modes`: five analog gains,
fixed 400 ms integration time. -/
def APDS_9250_group : ChannelGroup :=
  { channels :=
      [("R", true), ("G", true), ("B", true), ("IR", true),
       ("lux", false), ("CCT", false), ("umol-m2s", false)],
    gain_table :=
      [(1, 1, APDS_9250_INT_TIME), (3, 3, APDS_9250_INT_TIME),
       (6, 6, APDS_9250_INT_TIME), (9, 9, APDS_9250_INT_TIME),
       (18, 18, APDS_9250_INT_TIME)] }

/-- `APDS_9250.channel_modes`: a single group (one configuration register). -/
def APDS_9250_channel_modes : List ChannelGroup := [APDS_9250_group]

/-- `max_count = self.itime_table[self.INT_TIME][1] + 1` in
`APDS_9250.read_channels` (line 228 of `_lightsensors.py`). -/
def APDS_9250_max_count : ℕ :=
  ((dictGet APDS_9250_INT_TIME APDS_9250_itime_table).map Prod.snd).getD 0 + 1

/-- `sat = (count + 1) / max_count` in `APDS_9250.read_channels`
(lines 229-232). -/
def APDS_9250_saturation (count : ℕ) : ℚ :=
  ((count : ℚ) + 1) / (APDS_9250_max_count : ℚ)

/-- The keys of `TSL2591.again_reg_table`, in dict insertion order. -/
def TSL2591_again_keys : List ℚ := [1, 25, 428, 9876]

/-- The keys of `TSL2591.itime_table`, in dict insertion order. -/
def TSL2591_itime_keys : List ℚ := [1/10, 1/5, 3/10, 2/5, 1/2, 3/5]

/-- `TSL2591.channel_modes`: one group whose gain table is built by
`_gain_table_from_product`. -/
def TSL2591_channel_modes : List ChannelGroup :=
  [{ channels := [("Clear", true), ("IR", true), ("lux", false), ("umol-m2s", false)],
     gain_table := gainTableFromProduct TSL2591_again_keys TSL2591_itime_keys }]

/-- `max_count = (1 << 16) - 1` in `TSL2591.read_channels` (line 484 of
`_lightsensors.py`): the faked full-scale count used for every setting. -/
def TSL2591_max_count : ℕ := (1 <<< 16) - 1

/-- `sat = (count + 1) / max_count` in `TSL2591.read_channels`
(lines 485-486). -/
def TSL2591_saturation (count : ℕ) : ℚ :=
  ((count : ℚ) + 1) / (TSL2591_max_count : ℚ)

/-- `VEML6075.channel_modes`: one group, analog gain always 1, five
integration times. -/
def VEML6075_channel_modes : List ChannelGroup :=
  [{ channels := [("UVA", true), ("UVB", true), ("UVI", false)],
     gain_table :=
       [(1, 1, 1/20), (2, 1, 1/10), (4, 1, 1/5), (8, 1, 2/5), (16, 1, 4/5)] }]

/-! ### The orchestrating caller (`do_init` / `do_read` of `lightsensor.py`) -/

/-- One parsed config block: its parameters plus the list of configured buses
(`instance_config['Bus']`). -/
structure InstanceConfig (C : Type) where
  params : C
  buses  : List String

/-- `do_init` (lines 373-381): for every config and every bus of that config,
try to construct an `Instance` and append it to the instance list; a bare
`except` catches any construction error, logs it and moves on. -/
def doInitLoop {C I Err : Type} (build : C → String → Except Err I)
    (cfgs : List (InstanceConfig C)) : List I :=
  cfgs.foldl
    (fun acc c =>
      c.buses.foldl
        (fun acc2 b =>
          match build c.params b with
          | Except.ok inst => acc2 ++ [inst]
          | Except.error _ => acc2)
        acc)
    []

/-- `do_read` (lines 389-395): dispatch every instance in turn; a bare
`except` catches any dispatch error, logs it and continues with the next
instance.  The outcome of each attempt is recorded. -/
def doReadLoop {I Err : Type} (dispatch : I → Except Err Unit) :
    List I → List (I × Except Err Unit)
  | [] => []
  | i :: rest => (i, dispatch i) :: doReadLoop dispatch rest

/-! ### Concrete fixtures used in scenario conjuncts and witnesses -/

/-- The all-default configuration: no gain or integration-time restriction,
`GainMargin = 0.5`, `MaxSaturation = 0.9`. -/
def demoConfig : Config :=
  { analogGain := none, integrationTime := none, maxIntegrationTime := none,
    gainMargin := 1/2, maxSaturation := 9/10 }

/-- The two-channel group of the spec scenarios:
`gain_table = {1: (1, 0.1), 4: (2, 0.2), 16: (4, 0.4)}`. -/
def demoGroup : ChannelGroup :=
  { channels := [("A", true), ("B", true)],
    gain_table := [(1, 1, 1/10), (4, 2, 1/5), (16, 4, 2/5)] }

/-- A channel reading with the given saturation, gain and integration time. -/
def mkResult (sat again itime : ℚ) : MeasurementResult :=
  { value := 0, saturation := sat, again := again, itime := itime }

/-- Estimate-pass results reporting saturation `0.05` on both channels. -/
def demoEstimateLow : Results :=
  [("A", mkResult (1/20) 1 (1/10)), ("B", mkResult (1/20) 1 (1/10))]

/-- Estimate-pass results reporting saturation `0.5` on both channels. -/
def demoEstimateHalf : Results :=
  [("A", mkResult (1/2) 1 (1/10)), ("B", mkResult (1/2) 1 (1/10))]

/-- Refinement-pass results that stay below the saturation threshold. -/
def demoRefineOk : Results :=
  [("A", mkResult (2/5) 2 (1/5)), ("B", mkResult (3/10) 2 (1/5))]

/-- Refinement-pass results where channel `A` saturates to `0.95`. -/
def demoRefineSat : Results :=
  [("A", mkResult (19/20) 2 (1/5)), ("B", mkResult (2/5) 2 (1/5))]

/-- A sensor whose estimate pass reports saturation `0.05` and whose
refinement pass stays unsaturated. -/
def demoSensorLow : Sensor Unit :=
  { setModeErr := fun _ _ _ => none,
    reads := fun i => if i = 0 then Except.ok demoEstimateLow else Except.ok demoRefineOk }

/-- A sensor whose estimate pass reports saturation `0.5` (the skip
scenario). -/
def demoSensorHalf : Sensor Unit :=
  { setModeErr := fun _ _ _ => none,
    reads := fun i => if i = 0 then Except.ok demoEstimateHalf else Except.ok demoRefineOk }

/-- A sensor whose refinement pass saturates channel `A` to `0.95`. -/
def demoSensorSat : Sensor Unit :=
  { setModeErr := fun _ _ _ => none,
    reads := fun i => if i = 0 then Except.ok demoEstimateLow else Except.ok demoRefineSat }

/-- A sensor whose `read_channels` always raises the driver exception `7`. -/
def demoSensorFail : Sensor ℕ :=
  { setModeErr := fun _ _ _ => none,
    reads := fun _ => Except.error 7 }

/-- A configuration fixing `IntegrationTime = 0.2`. -/
def fixedItimeConfig : Config :=
  { analogGain := none, integrationTime := some (1/5), maxIntegrationTime := none,
    gainMargin := 1/2, maxSaturation := 9/10 }

/-- A configuration fixing `IntegrationTime = 0.3`. -/
def fixedItime3Config : Config :=
  { analogGain := none, integrationTime := some (3/10), maxIntegrationTime := none,
    gainMargin := 1/2, maxSaturation := 9/10 }

end Envsensor
namespace Envsensor

/-! ### Helper lemmas on the dict and list primitives -/

lemma dictGet_mem {α β : Type} [DecidableEq α] {k : α} {v : β} {l : List (α × β)}
    (h : dictGet k l = some v) : (k, v) ∈ l := by
  induction l with
  | nil => simp [dictGet] at h
  | cons kv rest ih =>
    obtain ⟨k1, v1⟩ := kv
    rw [dictGet] at h
    by_cases hk : k1 = k
    · simp only [hk, if_true, reduceIte, Option.some.injEq] at h
      simp [hk, h]
    · rw [if_neg hk] at h
      exact List.mem_cons_of_mem _ (ih h)

lemma dictGet_append {α β : Type} [DecidableEq α] (k : α) (d e : List (α × β)) :
    dictGet k (d ++ e) =
      match dictGet k d with
      | some v => some v
      | none => dictGet k e := by
  induction d with
  | nil => simp [dictGet]
  | cons kv rest ih =>
    by_cases hk : kv.1 = k <;> simp [dictGet, hk, ih]

lemma dictGet_map_set {α β : Type} [DecidableEq α] {k : α} {v : β} {d : List (α × β)}
    (h : (dictGet k d).isSome) :
    dictGet k (d.map (fun kv => if kv.1 = k then (k, v) else kv)) = some v := by
  induction d with
  | nil => simp [dictGet] at h
  | cons kv rest ih =>
    by_cases hk : kv.1 = k
    · simp [dictGet, hk]
    · rw [dictGet, if_neg hk] at h
      simpa [dictGet, hk] using ih h

lemma dictGet_map_set_ne {α β : Type} [DecidableEq α] {k q : α} {v : β}
    {d : List (α × β)} (hne : k ≠ q) :
    dictGet q (d.map (fun kv => if kv.1 = k then (k, v) else kv)) = dictGet q d := by
  induction d with
  | nil => simp [dictGet]
  | cons kv rest ih =>
    by_cases hk : kv.1 = k
    · simp [dictGet, hk, hne, ih]
    · simp only [List.map_cons, if_neg hk]
      rw [dictGet, dictGet, ih]

lemma dictGet_dictInsert_self {α β : Type} [DecidableEq α]
    (d : List (α × β)) (k : α) (v : β) :
    dictGet k (dictInsert d k v) = some v := by
  rw [dictInsert]
  split
  · exact dictGet_map_set (by assumption)
  · rename_i h
    rw [dictGet_append]
    have hnone : dictGet k d = none := by
      cases hd : dictGet k d with
      | none => rfl
      | some w => rw [hd] at h; simp at h
    rw [hnone]
    simp [dictGet]

lemma dictGet_dictInsert_ne {α β : Type} [DecidableEq α]
    {k q : α} (d : List (α × β)) (v : β) (hne : k ≠ q) :
    dictGet q (dictInsert d k v) = dictGet q d := by
  rw [dictInsert]
  split
  · exact dictGet_map_set_ne hne
  · rw [dictGet_append]
    cases hd : dictGet q d with
    | none => simp [dictGet, hne]
    | some w => simp

lemma dictGet_dictInsert_isSome {α β : Type} [DecidableEq α]
    {k q : α} {d : List (α × β)} {v : β} (h : (dictGet q d).isSome) :
    (dictGet q (dictInsert d k v)).isSome := by
  by_cases hk : k = q
  · subst hk; rw [dictGet_dictInsert_self]; rfl
  · rw [dictGet_dictInsert_ne d v hk]; exact h

/-! ### Lemmas about `pyMax` -/

lemma le_foldl_max (l : List ℚ) (a : ℚ) : a ≤ l.foldl max a := by
  induction l generalizing a with
  | nil => exact le_refl a
  | cons x xs ih => exact le_trans (le_max_left a x) (ih (max a x))

lemma foldl_max_of_mem {x : ℚ} {l : List ℚ} (hx : x ∈ l) (a : ℚ) :
    x ≤ l.foldl max a := by
  induction l generalizing a with
  | nil => cases hx
  | cons y ys ih =>
    rw [List.foldl_cons]
    rcases List.mem_cons.mp hx with rfl | hx'
    · exact le_trans (le_max_right a x) (le_foldl_max ys (max a x))
    · exact ih hx' (max a y)

lemma foldl_max_cases (l : List ℚ) (a : ℚ) :
    l.foldl max a = a ∨ l.foldl max a ∈ l := by
  induction l generalizing a with
  | nil => left; rfl
  | cons x xs ih =>
    rw [List.foldl_cons]
    rcases ih (max a x) with h | h
    · by_cases hax : x ≤ a
      · left; rw [h, max_eq_left hax]
      · right; rw [h, max_eq_right (le_of_not_le hax)]; exact List.mem_cons_self _ _
    · right; exact List.mem_cons_of_mem _ h

lemma foldl_max_of_le {l : List ℚ} {a : ℚ} (h : ∀ x ∈ l, x ≤ a) :
    l.foldl max a = a := by
  induction l with
  | nil => rfl
  | cons x xs ih =>
    rw [List.foldl_cons, max_eq_left (h x (List.mem_cons_self _ _))]
    exact ih (fun y hy => h y (List.mem_cons_of_mem _ hy))

lemma pyMax_mem {l : List ℚ} {m : ℚ} (h : pyMax l = some m) : m ∈ l := by
  cases l with
  | nil => simp [pyMax] at h
  | cons x xs =>
    rw [pyMax, Option.some.injEq] at h
    rcases foldl_max_cases xs x with h2 | h2
    · rw [← h, h2]; exact List.mem_cons_self _ _
    · rw [← h]; exact List.mem_cons_of_mem _ h2

lemma pyMax_le {l : List ℚ} {m : ℚ} (h : pyMax l = some m) :
    ∀ x ∈ l, x ≤ m := by
  cases l with
  | nil => simp [pyMax] at h
  | cons y ys =>
    rw [pyMax, Option.some.injEq] at h
    intro x hx
    rcases List.mem_cons.mp hx with rfl | hx'
    · rw [← h]; exact le_foldl_max ys x
    · rw [← h]; exact foldl_max_of_mem hx' y

lemma pyMax_eq_none_iff {l : List ℚ} : pyMax l = none ↔ l = [] := by
  cases l <;> simp [pyMax]

/-! ### Lemmas about `exceptMap` -/

lemma exceptMap_ok_iff {E α β : Type} {f : α → Except E β} :
    ∀ {l : List α} {ys : List β},
      exceptMap f l = Except.ok ys ↔
        List.Forall₂ (fun x y => f x = Except.ok y) l ys
  | [], ys => by
    constructor
    · intro h
      rw [exceptMap] at h
      injection h with h
      rw [← h]
      exact List.Forall₂.nil
    · intro h; cases h; rfl
  | x :: xs, ys => by
    constructor
    · intro h
      rw [exceptMap] at h
      cases hfx : f x with
      | error e => rw [hfx] at h; simp at h
      | ok y =>
        rw [hfx] at h
        cases hxs : exceptMap f xs with
        | error e => rw [hxs] at h; simp at h
        | ok ys2 =>
          rw [hxs] at h
          injection h with h
          rw [← h]
          exact List.Forall₂.cons hfx (exceptMap_ok_iff.mp hxs)
    · intro h
      cases h with
      | cons hfy htail =>
        rw [exceptMap, hfy, exceptMap_ok_iff.mpr htail]

lemma forall₂_getElem? {α β : Type} {R : α → β → Prop} {l1 : List α} {l2 : List β}
    (h : List.Forall₂ R l1 l2) :
    ∀ (i : ℕ) (x : α), l1[i]? = some x → ∃ y, l2[i]? = some y ∧ R x y := by
  induction h with
  | nil => intro i x hx; simp at hx
  | cons hR htail ih =>
    intro i x hx
    cases i with
    | zero =>
      simp only [List.getElem?_cons_zero, Option.some.injEq] at hx
      exact ⟨_, by simp, hx ▸ hR⟩
    | succ n =>
      simp only [List.getElem?_cons_succ] at hx ⊢
      exact ih n x hx

lemma forall₂_mem_right {α β : Type} {R : α → β → Prop} {l1 : List α} {l2 : List β}
    (h : List.Forall₂ R l1 l2) : ∀ {y}, y ∈ l2 → ∃ x ∈ l1, R x y := by
  induction h with
  | nil => intro y hy; cases hy
  | cons hR htail ih =>
    intro y hy
    rcases List.mem_cons.mp hy with rfl | hy'
    · exact ⟨_, List.mem_cons_self _ _, hR⟩
    · obtain ⟨x, hx, hxy⟩ := ih hy'
      exact ⟨x, List.mem_cons_of_mem _ hx, hxy⟩

end Envsensor
namespace Envsensor

/-! ### Characterization of the construction-time filtering -/

lemma mem_filterGainTable_iff {cfg : Config} {table : List (ℚ × ℚ × ℚ)}
    {kv : ℚ × ℚ × ℚ} :
    kv ∈ filterGainTable cfg table ↔
      kv ∈ table ∧ (∀ a, cfg.analogGain = some a → kv.2.1 = a) ∧
        (∀ t, cfg.integrationTime = some t → kv.2.2 = t) ∧
        (∀ m, cfg.maxIntegrationTime = some m → kv.2.2 ≤ m) := by
  rcases hA : cfg.analogGain with _ | a <;>
    rcases hI : cfg.integrationTime with _ | t <;>
      rcases hM : cfg.maxIntegrationTime with _ | m <;>
        simp [filterGainTable, hA, hI, hM, List.mem_filter, and_assoc] <;>
          tauto

/-! ### Characterization of the per-group gain selection -/

lemma newGainOf_qualifying {cfg : Config} {maxSat : ℚ} {g : ChannelGroup}
    (h : ∃ k ∈ g.gain_table.map Prod.fst, k ≤ extraGainOf cfg maxSat) :
    newGainOf cfg maxSat g ∈ g.gain_table.map Prod.fst ∧
    newGainOf cfg maxSat g ≤ extraGainOf cfg maxSat ∧
    ∀ k ∈ g.gain_table.map Prod.fst,
      k ≤ extraGainOf cfg maxSat → k ≤ newGainOf cfg maxSat g := by
  obtain ⟨k0, hk0, hk0le⟩ := h
  have hk0f : k0 ∈ (g.gain_table.map Prod.fst).filter
      (fun k => decide (k ≤ extraGainOf cfg maxSat)) :=
    List.mem_filter.mpr ⟨hk0, by simpa using hk0le⟩
  cases hpm : pyMax ((g.gain_table.map Prod.fst).filter
      (fun k => decide (k ≤ extraGainOf cfg maxSat))) with
  | none =>
    rw [pyMax_eq_none_iff] at hpm
    rw [hpm] at hk0f
    cases hk0f
  | some m =>
    have hmem := pyMax_mem hpm
    have hmf := List.mem_filter.mp hmem
    have hng : newGainOf cfg maxSat g = m := by rw [newGainOf, hpm]; rfl
    refine ⟨hng ▸ hmf.1, hng ▸ (by simpa using hmf.2), ?_⟩
    intro k hk hkle
    have : k ∈ (g.gain_table.map Prod.fst).filter
        (fun k => decide (k ≤ extraGainOf cfg maxSat)) :=
      List.mem_filter.mpr ⟨hk, by simpa using hkle⟩
    rw [hng]
    exact pyMax_le hpm k this

lemma newGainOf_none_qualifying {cfg : Config} {maxSat : ℚ} {g : ChannelGroup}
    (h : ∀ k ∈ g.gain_table.map Prod.fst, ¬ k ≤ extraGainOf cfg maxSat) :
    newGainOf cfg maxSat g = 1 := by
  have hfilt : (g.gain_table.map Prod.fst).filter
      (fun k => decide (k ≤ extraGainOf cfg maxSat)) = [] := by
    rw [List.filter_eq_nil_iff]
    intro k hk
    simpa using h k hk
  rw [newGainOf, hfilt]
  rfl

lemma newGainOf_cases (cfg : Config) (maxSat : ℚ) (g : ChannelGroup) :
    newGainOf cfg maxSat g = 1 ∨
    newGainOf cfg maxSat g ∈ g.gain_table.map Prod.fst := by
  cases hpm : pyMax ((g.gain_table.map Prod.fst).filter
      (fun k => decide (k ≤ extraGainOf cfg maxSat))) with
  | none => left; rw [newGainOf, hpm]; rfl
  | some m =>
    right
    have hng : newGainOf cfg maxSat g = m := by rw [newGainOf, hpm]; rfl
    rw [hng]
    exact (List.mem_filter.mp (pyMax_mem hpm)).1

lemma selectGain_ok_spec {E : Type} {cfg : Config} {re : Results} {g : ChannelGroup}
    {name : String} {ng a t : ℚ}
    (h : selectGain (E := E) cfg re g = Except.ok (name, ng, a, t)) :
    ∃ sats maxSat,
      groupSats (E := E) re g = Except.ok sats ∧
      pyMax sats = some maxSat ∧
      maxSat ≠ 0 ∧ (1 : ℚ) + cfg.gainMargin ≠ 0 ∧
      ng = newGainOf cfg maxSat g ∧
      dictGet ng g.gain_table = some (a, t) ∧
      (g.channels.map Prod.fst).head? = some name := by
  rw [selectGain] at h
  split at h
  · simp at h
  · rename_i sats hgs
    split at h
    · simp at h
    · rename_i maxSat hpm
      split at h
      · simp at h
      · rename_i h0
        split at h
        · simp at h
        · rename_i h1
          split at h
          · simp at h
          · rename_i p hdg
            split at h
            · simp at h
            · rename_i nm hhd
              injection h with h
              simp only [Prod.mk.injEq] at h
              obtain ⟨hnm, hng, hpa, hpt⟩ := h
              subst hnm
              subst hng
              subst hpa
              subst hpt
              exact ⟨sats, maxSat, hgs, hpm, h0, h1, rfl, by simpa using hdg, hhd⟩

/-! ### The gain-selection pass as a whole -/

lemma gainSelectPass_of_forall₂ {E : Type} {s : Sensor E} {cfg : Config} {re : Results}
    (hsm : ∀ n a t, s.setModeErr n a t = none)
    {gs : List ChannelGroup} {sels : List (String × ℚ × ℚ × ℚ)}
    (h : List.Forall₂ (fun g x => selectGain (E := E) cfg re g = Except.ok x) gs sels) :
    ∀ acc, gainSelectPass s cfg re gs acc =
      (sels.map (fun x => SensorOp.setMode x.1 x.2.2.1 x.2.2.2),
       Except.ok ((sels.map (fun x => x.2.1)).foldl max acc)) := by
  induction h with
  | nil => intro acc; rfl
  | cons hsel htail ih =>
    intro acc
    rw [gainSelectPass, hsel]
    simp only [hsm, List.map_cons, List.foldl_cons]
    rw [ih]

/-! ### The saturation guard -/

lemma saturationGuard_ok_spec {E : Type} {cfg : Config} {re res out : Results}
    (h : saturationGuard (E := E) cfg re res = Except.ok out) :
    out.length = res.length ∧
    ∀ (i : ℕ) (n : String) (r : MeasurementResult), res[i]? = some (n, r) →
      (cfg.maxSaturation < r.saturation →
        ∃ r0, dictGet n re = some r0 ∧ out[i]? = some (n, r0)) ∧
      (¬ cfg.maxSaturation < r.saturation → out[i]? = some (n, r)) := by
  rw [saturationGuard] at h
  have h2 := exceptMap_ok_iff.mp h
  refine ⟨(List.Forall₂.length_eq h2).symm, ?_⟩
  intro i n r hres
  obtain ⟨y, hy, hR⟩ := forall₂_getElem? h2 i (n, r) hres
  rw [guardChannel] at hR
  constructor
  · intro hsat
    rw [if_pos hsat] at hR
    cases hdg : dictGet n re with
    | none => rw [hdg] at hR; simp at hR
    | some r0 =>
      rw [hdg] at hR
      injection hR with hR
      exact ⟨r0, rfl, by rw [hy, ← hR]⟩
  · intro hsat
    rw [if_neg hsat] at hR
    injection hR with hR
    rw [hy, ← hR]

end Envsensor
namespace Envsensor

/-! ### Lemmas about `_gain_table_from_product` -/

lemma productRow_cons {agains : List ℚ} {a mn itime : ℚ} {acc : List (ℚ × ℚ × ℚ)} :
    productRow (a :: agains) mn itime acc =
      productRow agains mn itime (dictInsert acc (keyOf mn a itime) (a, itime)) := rfl

lemma productRow_lookup {mn itime : ℚ} :
    ∀ (agains : List ℚ) (acc : List (ℚ × ℚ × ℚ)) (k : ℚ) (v : ℚ × ℚ),
      dictGet k (productRow agains mn itime acc) = some v →
      (∃ a ∈ agains, keyOf mn a itime = k ∧ v = (a, itime)) ∨
      (dictGet k acc = some v ∧ ∀ a ∈ agains, keyOf mn a itime ≠ k) := by
  intro agains
  induction agains with
  | nil =>
    intro acc k v h
    right
    exact ⟨h, by simp⟩
  | cons a as ih =>
    intro acc k v h
    rw [productRow_cons] at h
    rcases ih _ k v h with ⟨a2, ha2, hk2, hv2⟩ | ⟨hacc, hne⟩
    · exact Or.inl ⟨a2, List.mem_cons_of_mem _ ha2, hk2, hv2⟩
    · by_cases hk : keyOf mn a itime = k
      · subst hk
        rw [dictGet_dictInsert_self] at hacc
        injection hacc with hacc
        exact Or.inl ⟨a, List.mem_cons_self _ _, rfl, hacc.symm⟩
      · rw [dictGet_dictInsert_ne _ _ hk] at hacc
        refine Or.inr ⟨hacc, ?_⟩
        intro a2 ha2
        rcases List.mem_cons.mp ha2 with rfl | ha2'
        · exact hk
        · exact hne a2 ha2'

lemma productRow_isSome {mn itime : ℚ} :
    ∀ (agains : List ℚ) (acc : List (ℚ × ℚ × ℚ)) (k : ℚ),
      ((dictGet k acc).isSome ∨ ∃ a ∈ agains, keyOf mn a itime = k) →
      (dictGet k (productRow agains mn itime acc)).isSome := by
  intro agains
  induction agains with
  | nil =>
    intro acc k h
    rcases h with h | ⟨a, ha, _⟩
    · exact h
    · cases ha
  | cons a as ih =>
    intro acc k h
    rw [productRow_cons]
    apply ih
    rcases h with h | ⟨a2, ha2, hk2⟩
    · exact Or.inl (dictGet_dictInsert_isSome h)
    · rcases List.mem_cons.mp ha2 with rfl | ha2'
      · subst hk2
        left
        rw [dictGet_dictInsert_self]
        rfl
      · exact Or.inr ⟨a2, ha2', hk2⟩

lemma productFold_lookup {agains : List ℚ} {mn : ℚ} :
    ∀ (ts : List ℚ) (acc : List (ℚ × ℚ × ℚ)),
      List.Sorted (fun a b => a ≤ b) ts →
      ∀ (k : ℚ) (v : ℚ × ℚ),
        dictGet k (ts.foldl (fun acc2 itime => productRow agains mn itime acc2) acc)
          = some v →
        (∃ a ∈ agains, ∃ t ∈ ts, keyOf mn a t = k ∧ v = (a, t) ∧
           ∀ t2 ∈ ts, (∃ a2 ∈ agains, keyOf mn a2 t2 = k) → t2 ≤ v.2) ∨
        (dictGet k acc = some v ∧ ∀ a ∈ agains, ∀ t ∈ ts, keyOf mn a t ≠ k) := by
  intro ts
  induction ts with
  | nil =>
    intro acc _ k v h
    right
    exact ⟨h, by simp⟩
  | cons t ts' ih =>
    intro acc hsorted k v h
    obtain ⟨hle, hsorted'⟩ := List.sorted_cons.mp hsorted
    rw [List.foldl_cons] at h
    rcases ih _ hsorted' k v h with
      ⟨a, ha, t', ht', hk', hv', hmax⟩ | ⟨hrow, hne⟩
    · refine Or.inl ⟨a, ha, t', List.mem_cons_of_mem _ ht', hk', hv', ?_⟩
      intro t2 ht2 hex
      rcases List.mem_cons.mp ht2 with rfl | ht2'
      · rw [hv']
        exact le_trans (hle t' ht') (le_refl t')
      · exact hmax t2 ht2' hex
    · rcases productRow_lookup agains acc k v hrow with
        ⟨a, ha, hk2, hv2⟩ | ⟨hacc, hne2⟩
      · refine Or.inl ⟨a, ha, t, List.mem_cons_self _ _, hk2, hv2, ?_⟩
        intro t2 ht2 hex
        rcases List.mem_cons.mp ht2 with rfl | ht2'
        · rw [hv2]
        · obtain ⟨a2, ha2, hka2⟩ := hex
          exact absurd hka2 (hne a2 ha2 t2 ht2')
      · refine Or.inr ⟨hacc, ?_⟩
        intro a2 ha2 t2 ht2
        rcases List.mem_cons.mp ht2 with rfl | ht2'
        · exact hne2 a2 ha2
        · exact hne a2 ha2 t2 ht2'

lemma productFold_isSome {agains : List ℚ} {mn : ℚ} :
    ∀ (ts : List ℚ) (acc : List (ℚ × ℚ × ℚ)) (k : ℚ),
      ((dictGet k acc).isSome ∨ ∃ a ∈ agains, ∃ t ∈ ts, keyOf mn a t = k) →
      (dictGet k
        (ts.foldl (fun acc2 itime => productRow agains mn itime acc2) acc)).isSome := by
  intro ts
  induction ts with
  | nil =>
    intro acc k h
    rcases h with h | ⟨a, _, t, ht, _⟩
    · exact h
    · cases ht
  | cons t ts' ih =>
    intro acc k h
    rw [List.foldl_cons]
    apply ih
    rcases h with h | ⟨a, ha, t2, ht2, hk2⟩
    · exact Or.inl (productRow_isSome agains acc k (Or.inl h))
    · rcases List.mem_cons.mp ht2 with rfl | ht2'
      · exact Or.inl (productRow_isSome agains acc k (Or.inr ⟨a, ha, hk2⟩))
      · exact Or.inr ⟨a, ha, t2, ht2', hk2⟩

lemma gainTableFromProduct_lookup {agains : List ℚ} {t0 : ℚ} {ts : List ℚ}
    {a t : ℚ} (ha : a ∈ agains) (ht : t ∈ t0 :: ts) :
    ∃ a2 t2, dictGet (keyOf (ts.foldl min t0) a t)
        (gainTableFromProduct agains (t0 :: ts)) = some (a2, t2) ∧
      a2 ∈ agains ∧ t2 ∈ t0 :: ts ∧
      keyOf (ts.foldl min t0) a2 t2 = keyOf (ts.foldl min t0) a t ∧
      ∀ a3 ∈ agains, ∀ t3 ∈ t0 :: ts,
        keyOf (ts.foldl min t0) a3 t3 = keyOf (ts.foldl min t0) a t → t3 ≤ t2 := by
  have hperm := List.perm_insertionSort (fun x y : ℚ => x ≤ y) (t0 :: ts)
  have hsorted := List.sorted_insertionSort (fun x y : ℚ => x ≤ y) (t0 :: ts)
  have hsome : (dictGet (keyOf (ts.foldl min t0) a t)
      (gainTableFromProduct agains (t0 :: ts))).isSome := by
    rw [gainTableFromProduct]
    exact productFold_isSome _ _ _
      (Or.inr ⟨a, ha, t, hperm.mem_iff.mpr ht, rfl⟩)
  obtain ⟨v, hv⟩ := Option.isSome_iff_exists.mp hsome
  have hv2 := hv
  rw [gainTableFromProduct] at hv2
  rcases productFold_lookup _ _ hsorted _ _ hv2 with
    ⟨a2, ha2, t2, ht2, hk2, hveq, hmax⟩ | ⟨hnil, _⟩
  · subst hveq
    refine ⟨a2, t2, hv, ha2, hperm.mem_iff.mp ht2, hk2, ?_⟩
    intro a3 ha3 t3 ht3 hk3
    exact hmax t3 (hperm.mem_iff.mpr ht3) ⟨a3, ha3, hk3⟩
  · simp [dictGet] at hnil

end Envsensor
namespace Envsensor

/-! ### Lemmas about `Instance.__init__` -/

lemma initGroups_ok_iff {cfg : Config} {modes groups : List ChannelGroup}
    (h : initGroups cfg modes = Except.ok groups) :
    groups = modes.map
      (fun g => { g with gain_table := filterGainTable cfg g.gain_table }) ∧
    (∀ g ∈ groups, g.gain_table ≠ []) ∧
    (∀ g ∈ groups, g.channels ≠ [] → (dictGet (1 : ℚ) g.gain_table).isSome) := by
  rw [initGroups] at h
  split at h
  · simp at h
  · rename_i hany1
    split at h
    · simp at h
    · rename_i hany2
      injection h with h
      subst h
      refine ⟨rfl, ?_, ?_⟩
      · intro g hg
        intro hempty
        apply hany1
        rw [List.any_eq_true]
        exact ⟨g, hg, by simp [hempty]⟩
      · intro g hg hch
        by_contra hnone
        apply hany2
        rw [List.any_eq_true]
        refine ⟨g, hg, ?_⟩
        have h1 : g.channels.isEmpty = false := by
          cases hc : g.channels with
          | nil => exact absurd hc hch
          | cons x xs => rfl
        have h2 : (dictGet (1 : ℚ) g.gain_table).isNone = true := by
          cases hd : dictGet (1 : ℚ) g.gain_table with
          | none => rfl
          | some p => rw [hd] at hnone; simp at hnone
        simp [h1, h2]

lemma initGroups_empty_error {cfg : Config} {modes : List ChannelGroup}
    (h : ∃ g ∈ modes, filterGainTable cfg g.gain_table = []) :
    initGroups cfg modes = Except.error InitError.noSupportedSettings := by
  obtain ⟨g, hg, hempty⟩ := h
  rw [initGroups]
  rw [if_pos]
  rw [List.any_eq_true]
  refine ⟨{ g with gain_table := filterGainTable cfg g.gain_table }, ?_, ?_⟩
  · exact List.mem_map_of_mem _ hg
  · simp [hempty]

lemma initGroups_key_one_min {cfg : Config} {modes groups : List ChannelGroup}
    (h : initGroups cfg modes = Except.ok groups)
    (hmodes : ∀ g0 ∈ modes, g0.channels ≠ [] ∧
      ∃ a0 t0, (∀ kv ∈ g0.gain_table, kv.1 = 1 → kv.2 = (a0, t0)) ∧
               (∀ kv ∈ g0.gain_table, a0 ≤ kv.2.1 ∧ t0 ≤ kv.2.2)) :
    ∀ g ∈ groups, ∃ a t, dictGet (1 : ℚ) g.gain_table = some (a, t) ∧
      ∀ kv ∈ g.gain_table, a ≤ kv.2.1 ∧ t ≤ kv.2.2 := by
  obtain ⟨hgroups, _, hkey⟩ := initGroups_ok_iff h
  intro g hg
  have hg2 := hg
  rw [hgroups] at hg2
  obtain ⟨g0, hg0, hgeq⟩ := List.mem_map.mp hg2
  obtain ⟨hch, a0, t0, hone, hmin⟩ := hmodes g0 hg0
  have hchg : g.channels ≠ [] := by rw [← hgeq]; exact hch
  have hsome := hkey g hg hchg
  obtain ⟨p, hp⟩ := Option.isSome_iff_exists.mp hsome
  have hpmem : ((1 : ℚ), p) ∈ g.gain_table := dictGet_mem hp
  have hpmem0 : ((1 : ℚ), p) ∈ g0.gain_table := by
    rw [← hgeq] at hpmem
    exact (mem_filterGainTable_iff.mp hpmem).1
  have hpeq : p = (a0, t0) := hone _ hpmem0 rfl
  refine ⟨a0, t0, by rw [hp, hpeq], ?_⟩
  intro kv hkv
  have hkv0 : kv ∈ g0.gain_table := by
    rw [← hgeq] at hkv
    exact (mem_filterGainTable_iff.mp hkv).1
  exact hmin kv hkv0

/-! ### Concrete facts about the three drivers' gain tables -/

lemma TSL2591_gain_table_eq :
    gainTableFromProduct TSL2591_again_keys TSL2591_itime_keys =
      [(1, 1, 1/10), (25, 25, 1/10), (428, 428, 1/10), (9876, 9876, 1/10),
       (2, 1, 1/5), (50, 25, 1/5), (856, 428, 1/5), (19752, 9876, 1/5),
       (3, 1, 3/10), (75, 25, 3/10), (1284, 428, 3/10), (29628, 9876, 3/10),
       (4, 1, 2/5), (100, 25, 2/5), (1712, 428, 2/5), (39504, 9876, 2/5),
       (5, 1, 1/2), (125, 25, 1/2), (2140, 428, 1/2), (49380, 9876, 1/2),
       (6, 1, 3/5), (150, 25, 3/5), (2568, 428, 3/5), (59256, 9876, 3/5)] := by
  norm_num [gainTableFromProduct, TSL2591_again_keys, TSL2591_itime_keys,
    productRow, dictInsert, dictGet, keyOf, pyRound, List.insertionSort,
    List.orderedInsert, min_def, max_def]

lemma APDS_9250_table_facts :
    ∀ g0 ∈ APDS_9250_channel_modes, g0.channels ≠ [] ∧
      ∃ a0 t0, (∀ kv ∈ g0.gain_table, kv.1 = 1 → kv.2 = (a0, t0)) ∧
               (∀ kv ∈ g0.gain_table, a0 ≤ kv.2.1 ∧ t0 ≤ kv.2.2) := by
  intro g0 hg0
  rw [APDS_9250_channel_modes, List.mem_singleton] at hg0
  subst hg0
  refine ⟨by simp [APDS_9250_group], 1, APDS_9250_INT_TIME, ?_, ?_⟩ <;>
    · intro kv hkv
      simp only [APDS_9250_group] at hkv
      fin_cases hkv <;> norm_num [APDS_9250_INT_TIME]

lemma TSL2591_table_facts :
    ∀ g0 ∈ TSL2591_channel_modes, g0.channels ≠ [] ∧
      ∃ a0 t0, (∀ kv ∈ g0.gain_table, kv.1 = 1 → kv.2 = (a0, t0)) ∧
               (∀ kv ∈ g0.gain_table, a0 ≤ kv.2.1 ∧ t0 ≤ kv.2.2) := by
  intro g0 hg0
  rw [TSL2591_channel_modes, List.mem_singleton] at hg0
  subst hg0
  refine ⟨by simp, 1, 1/10, ?_, ?_⟩ <;>
    · intro kv hkv
      rw [TSL2591_gain_table_eq] at hkv
      fin_cases hkv <;> norm_num

lemma VEML6075_table_facts :
    ∀ g0 ∈ VEML6075_channel_modes, g0.channels ≠ [] ∧
      ∃ a0 t0, (∀ kv ∈ g0.gain_table, kv.1 = 1 → kv.2 = (a0, t0)) ∧
               (∀ kv ∈ g0.gain_table, a0 ≤ kv.2.1 ∧ t0 ≤ kv.2.2) := by
  intro g0 hg0
  rw [VEML6075_channel_modes, List.mem_singleton] at hg0
  subst hg0
  refine ⟨by simp, 1, 1/20, ?_, ?_⟩ <;>
    · intro kv hkv
      fin_cases hkv <;> norm_num

/-! ### Lemmas about `do_init` / `do_read` -/

lemma doInit_inner {C I Err : Type} (build : C → String → Except Err I) (p : C) :
    ∀ (buses : List String) (acc : List I),
      buses.foldl
        (fun acc2 b =>
          match build p b with
          | Except.ok inst => acc2 ++ [inst]
          | Except.error _ => acc2)
        acc
      = acc ++ buses.filterMap (fun b => (build p b).toOption) := by
  intro buses
  induction buses with
  | nil => intro acc; simp
  | cons b bs ih =>
    intro acc
    rw [List.foldl_cons, List.filterMap_cons]
    cases hb : build p b with
    | ok inst => rw [ih]; simp [Except.toOption]
    | error e => rw [ih]; simp [Except.toOption]

lemma doInitLoop_eq {C I Err : Type} (build : C → String → Except Err I) :
    ∀ (cfgs : List (InstanceConfig C)) (acc : List I),
      cfgs.foldl
        (fun acc c =>
          c.buses.foldl
            (fun acc2 b =>
              match build c.params b with
              | Except.ok inst => acc2 ++ [inst]
              | Except.error _ => acc2)
            acc)
        acc
      = acc ++ cfgs.flatMap
          (fun c => c.buses.filterMap (fun b => (build c.params b).toOption)) := by
  intro cfgs
  induction cfgs with
  | nil => intro acc; simp
  | cons c cs ih =>
    intro acc
    rw [List.foldl_cons, doInit_inner, ih, List.flatMap_cons, List.append_assoc]

lemma doReadLoop_eq_map {I Err : Type} (dispatch : I → Except Err Unit) :
    ∀ (insts : List I),
      doReadLoop dispatch insts = insts.map (fun i => (i, dispatch i)) := by
  intro insts
  induction insts with
  | nil => rfl
  | cons i rest ih => rw [doReadLoop, ih, List.map_cons]

end Envsensor
namespace Envsensor

/-! ### Claim theorems -/

/-- C4: the driver contract demands `saturation = (raw_count + 1) / max_count`
in `(0, 1]`, and `APDS_9250.read_channels` (divisor `2^20`) satisfies it over
the whole count range, but `TSL2591.read_channels` divides by
`(1 << 16) - 1 = 65535`, so the full-scale raw count `65535` yields
`65536/65535 > 1`, contradicting the `(0, 1]` bound documented in the driver
contract of `lightsensor.py`. -/
theorem read_channels_saturation_bounds_violated :
    TSL2591_saturation 65535 = 65536 / 65535 ∧
    1 < TSL2591_saturation 65535 ∧
    APDS_9250_saturation 0 = 1 / 1048576 ∧
    0 < APDS_9250_saturation 0 ∧
    APDS_9250_saturation (2 ^ 20 - 1) = 1 := by
  norm_num [TSL2591_saturation, TSL2591_max_count, APDS_9250_saturation,
    APDS_9250_max_count, APDS_9250_itime_table, APDS_9250_INT_TIME, dictGet,
    Nat.shiftLeft_eq]

/-- C9: `do_init` keeps exactly the (config, bus) pairs whose construction
succeeds, in order — a failing construction only drops its own instance —
and `do_read` attempts to dispatch every instance, recording each outcome
independently of the failures of the others. -/
theorem orchestrator_isolates_instance_failures {C I Err : Type}
    (build : C → String → Except Err I) (dispatch : I → Except Err Unit)
    (cfgs : List (InstanceConfig C)) (insts : List I) :
    doInitLoop build cfgs =
      cfgs.flatMap (fun c => c.buses.filterMap (fun b => (build c.params b).toOption)) ∧
    (doReadLoop dispatch insts).map Prod.fst = insts ∧
    ∀ p ∈ doReadLoop dispatch insts, p.2 = dispatch p.1 := by
  refine ⟨?_, ?_, ?_⟩
  · rw [doInitLoop, doInitLoop_eq]
    simp
  · rw [doReadLoop_eq_map]
    induction insts with
    | nil => rfl
    | cons i rest ih => simpa using ih
  · rw [doReadLoop_eq_map]
    intro p hp
    obtain ⟨i, _, rfl⟩ := List.mem_map.mp hp
    rfl

/-- C5: at construction each group's gain table is filtered to exactly the
entries matching the configured `AnalogGain`, `IntegrationTime` and
`MaxIntegrationTime` constraints; a group whose filtered table is empty makes
construction fail with the configuration error; in particular fixing
`IntegrationTime = 0.2` against the APDS-9250 table (all entries at 0.4 s)
raises it. -/
theorem init_filters_gain_table_and_rejects_empty :
    (∀ (cfg : Config) (table : List (ℚ × ℚ × ℚ)) (kv : ℚ × ℚ × ℚ),
      kv ∈ filterGainTable cfg table ↔
        kv ∈ table ∧ (∀ a, cfg.analogGain = some a → kv.2.1 = a) ∧
          (∀ t, cfg.integrationTime = some t → kv.2.2 = t) ∧
          (∀ m, cfg.maxIntegrationTime = some m → kv.2.2 ≤ m)) ∧
    (∀ (cfg : Config) (modes : List ChannelGroup),
      (∃ g ∈ modes, filterGainTable cfg g.gain_table = []) →
      initGroups cfg modes = Except.error InitError.noSupportedSettings) ∧
    initGroups fixedItimeConfig APDS_9250_channel_modes =
      Except.error InitError.noSupportedSettings := by
  refine ⟨fun _ _ _ => mem_filterGainTable_iff, fun _ _ => initGroups_empty_error, ?_⟩
  norm_num [initGroups, filterGainTable, fixedItimeConfig, APDS_9250_channel_modes,
    APDS_9250_INT_TIME, dictGet, List.filter]

/-- Witness for C5: fixing `IntegrationTime = 0.3` against the VEML6075 table
(which has no 0.3 s entry) is rejected at construction. -/
theorem init_filters_gain_table_and_rejects_empty_witness :
    initGroups fixedItime3Config VEML6075_channel_modes =
      Except.error InitError.noSupportedSettings :=
  init_filters_gain_table_and_rejects_empty.2.1 fixedItime3Config VEML6075_channel_modes
    ⟨{ channels := [("UVA", true), ("UVB", true), ("UVI", false)],
       gain_table := [(1, 1, 1/20), (2, 1, 1/10), (4, 1, 1/5), (8, 1, 2/5), (16, 1, 4/5)] },
     by norm_num [VEML6075_channel_modes],
     by norm_num [filterGainTable, fixedItime3Config, List.filter]⟩

/-- C7: in the table built by `_gain_table_from_product`, the entry stored
under any product pair's rounded total-gain key is itself a product pair with
the same key whose integration time is the longest among all colliding
pairs — the sorted ascending outer loop together with the dict overwrite
enforces the documented tie-break. -/
theorem gain_table_collision_prefers_longer_itime
    (agains : List ℚ) (t0 : ℚ) (ts : List ℚ) (a t : ℚ)
    (ha : a ∈ agains) (ht : t ∈ t0 :: ts) :
    ∃ a2 t2,
      dictGet (keyOf (ts.foldl min t0) a t) (gainTableFromProduct agains (t0 :: ts))
        = some (a2, t2) ∧
      a2 ∈ agains ∧ t2 ∈ t0 :: ts ∧
      keyOf (ts.foldl min t0) a2 t2 = keyOf (ts.foldl min t0) a t ∧
      t ≤ t2 ∧
      ∀ a3 ∈ agains, ∀ t3 ∈ t0 :: ts,
        keyOf (ts.foldl min t0) a3 t3 = keyOf (ts.foldl min t0) a t → t3 ≤ t2 := by
  obtain ⟨a2, t2, h1, h2, h3, h4, h5⟩ := gainTableFromProduct_lookup ha ht
  exact ⟨a2, t2, h1, h2, h3, h4, h5 a ha t ht rfl, h5⟩

/-- Witness for C7 at the TSL2591 driver's analog gains and integration
times. -/
theorem gain_table_collision_prefers_longer_itime_witness :
    ∃ a2 t2,
      dictGet (keyOf (([1/5, 3/10, 2/5, 1/2, 3/5] : List ℚ).foldl min (1/10)) 9876 (3/5))
        (gainTableFromProduct TSL2591_again_keys ((1/10) :: [1/5, 3/10, 2/5, 1/2, 3/5]))
        = some (a2, t2) ∧
      a2 ∈ TSL2591_again_keys ∧ t2 ∈ (1/10 : ℚ) :: [1/5, 3/10, 2/5, 1/2, 3/5] ∧
      keyOf (([1/5, 3/10, 2/5, 1/2, 3/5] : List ℚ).foldl min (1/10)) a2 t2 =
        keyOf (([1/5, 3/10, 2/5, 1/2, 3/5] : List ℚ).foldl min (1/10)) 9876 (3/5) ∧
      (3/5 : ℚ) ≤ t2 ∧
      ∀ a3 ∈ TSL2591_again_keys, ∀ t3 ∈ (1/10 : ℚ) :: [1/5, 3/10, 2/5, 1/2, 3/5],
        keyOf (([1/5, 3/10, 2/5, 1/2, 3/5] : List ℚ).foldl min (1/10)) a3 t3 =
          keyOf (([1/5, 3/10, 2/5, 1/2, 3/5] : List ℚ).foldl min (1/10)) 9876 (3/5) →
        t3 ≤ t2 :=
  gain_table_collision_prefers_longer_itime TSL2591_again_keys (1/10)
    [1/5, 3/10, 2/5, 1/2, 3/5] 9876 (3/5)
    (by norm_num [TSL2591_again_keys]) (by norm_num)

/-- C6: for every channel group accepted by a successfully constructed
instance over one of the repository's three drivers, the (filtered) gain
table still contains an entry at key `1` — construction fails otherwise,
since `__init__` looks up `gain_table[1]` for every group — and that entry is
the pointwise minimum analog-gain/integration-time pair of the table. -/
theorem accepted_groups_have_baseline_gain_one
    (cfg : Config) (modes : List ChannelGroup)
    (hdrv : modes = APDS_9250_channel_modes ∨ modes = TSL2591_channel_modes ∨
            modes = VEML6075_channel_modes)
    (groups : List ChannelGroup)
    (h : initGroups cfg modes = Except.ok groups) :
    ∀ g ∈ groups, ∃ a t, dictGet (1 : ℚ) g.gain_table = some (a, t) ∧
      ∀ kv ∈ g.gain_table, a ≤ kv.2.1 ∧ t ≤ kv.2.2 := by
  rcases hdrv with rfl | rfl | rfl
  · exact initGroups_key_one_min h APDS_9250_table_facts
  · exact initGroups_key_one_min h TSL2591_table_facts
  · exact initGroups_key_one_min h VEML6075_table_facts

/-- Witness for C6: the unconstrained default configuration accepts the
APDS-9250 modes unchanged, and its group has the baseline entry at key 1. -/
theorem accepted_groups_have_baseline_gain_one_witness :
    ∃ a t, dictGet (1 : ℚ) APDS_9250_group.gain_table = some (a, t) ∧
      ∀ kv ∈ APDS_9250_group.gain_table, a ≤ kv.2.1 ∧ t ≤ kv.2.2 :=
  accepted_groups_have_baseline_gain_one demoConfig APDS_9250_channel_modes
    (Or.inl rfl) APDS_9250_channel_modes
    (by norm_num [initGroups, filterGainTable, demoConfig, APDS_9250_channel_modes,
      APDS_9250_group, APDS_9250_INT_TIME, dictGet])
    APDS_9250_group
    (by rw [APDS_9250_channel_modes]; exact List.mem_singleton.mpr rfl)

end Envsensor
namespace Envsensor

/-- C1: whenever the per-group gain selection succeeds, the saturation list is
the group's channel saturations from the estimate pass, the target extra gain
is `1 / max_saturation / (1 + GainMargin)`, the selected gain is the largest
table key below the target (or `1` when no key qualifies) and the applied
setting is the table entry at the selected key; in the spec scenario
(saturation `0.05`, margin `0.5`, table `{1: (1, 0.1), 4: (2, 0.2),
16: (4, 0.4)}`) the selected gain is `4` and the refinement pass applies
analog gain `2` with integration time `0.2`. -/
theorem measure_selects_largest_qualifying_gain :
    (∀ (cfg : Config) (re : Results) (g : ChannelGroup) (name : String) (ng a t : ℚ),
      selectGain (E := Unit) cfg re g = Except.ok (name, ng, a, t) →
      ∃ sats maxSat,
        groupSats (E := Unit) re g = Except.ok sats ∧
        pyMax sats = some maxSat ∧
        dictGet ng g.gain_table = some (a, t) ∧
        ((∃ k ∈ g.gain_table.map Prod.fst, k ≤ 1 / maxSat / (1 + cfg.gainMargin)) →
          ng ∈ g.gain_table.map Prod.fst ∧
          ng ≤ 1 / maxSat / (1 + cfg.gainMargin) ∧
          ∀ k ∈ g.gain_table.map Prod.fst,
            k ≤ 1 / maxSat / (1 + cfg.gainMargin) → k ≤ ng) ∧
        ((∀ k ∈ g.gain_table.map Prod.fst, ¬ k ≤ 1 / maxSat / (1 + cfg.gainMargin)) →
          ng = 1)) ∧
    selectGain (E := Unit) demoConfig demoEstimateLow demoGroup =
      Except.ok ("A", 4, 2, 1/5) ∧
    measure demoSensorLow demoConfig [demoGroup] =
      ([SensorOp.setMode "A" 1 (1/10), SensorOp.read,
        SensorOp.setMode "A" 2 (1/5), SensorOp.read],
       Except.ok demoRefineOk) := by
  refine ⟨?_, ?_, ?_⟩
  · intro cfg re g name ng a t h
    obtain ⟨sats, maxSat, hgs, hpm, _, _, hng, hdg, _⟩ := selectGain_ok_spec h
    refine ⟨sats, maxSat, hgs, hpm, hdg, ?_, ?_⟩
    · intro hex
      rw [hng]
      have hq := @newGainOf_qualifying cfg maxSat g
        (by simpa [extraGainOf] using hex)
      simpa [extraGainOf] using hq
    · intro hnone
      rw [hng]
      exact newGainOf_none_qualifying (by simpa [extraGainOf] using hnone)
  · norm_num [selectGain, groupSats, exceptMap, dictGet, pyMax, newGainOf,
      extraGainOf, demoConfig, demoGroup, demoEstimateLow, mkResult,
      List.filter, max_def]
  · norm_num [measure, estimatePass, gainSelectPass, selectGain, groupSats,
      exceptMap, dictGet, pyMax, newGainOf, extraGainOf, saturationGuard,
      guardChannel, demoSensorLow, demoConfig, demoGroup, demoEstimateLow,
      demoRefineOk, mkResult, List.filter, max_def]

/-- Witness for C1 at the spec scenario inputs. -/
theorem measure_selects_largest_qualifying_gain_witness :
    ∃ sats maxSat,
      groupSats (E := Unit) demoEstimateLow demoGroup = Except.ok sats ∧
      pyMax sats = some maxSat ∧
      dictGet (4 : ℚ) demoGroup.gain_table = some (2, 1/5) := by
  obtain ⟨sats, maxSat, h1, h2, h3, _, _⟩ :=
    measure_selects_largest_qualifying_gain.1 demoConfig demoEstimateLow demoGroup
      "A" 4 2 (1/5) measure_selects_largest_qualifying_gain.2.1
  exact ⟨sats, maxSat, h1, h2, h3⟩

/-- C8: any exception raised by `set_channel_mode` or `read_channels` during
`measure()` — in the estimate pass, the first read, the gain-selection pass or
the second read — surfaces unchanged as the outcome of `measure()`: the
method installs no handler and performs no retry. -/
theorem measure_propagates_sensor_errors {E : Type} (s : Sensor E) (cfg : Config)
    (groups : List ChannelGroup) (e : E)
    (h : (estimatePass s groups).2 = some (PyErr.fromSensor e) ∨
         ((estimatePass s groups).2 = none ∧ s.reads 0 = Except.error e) ∨
         ((estimatePass s groups).2 = none ∧ ∃ re, s.reads 0 = Except.ok re ∧
           (gainSelectPass s cfg re groups 1).2 = Except.error (PyErr.fromSensor e)) ∨
         ((estimatePass s groups).2 = none ∧ ∃ re tr2 mg,
           s.reads 0 = Except.ok re ∧
           gainSelectPass s cfg re groups 1 = (tr2, Except.ok mg) ∧ mg ≠ 1 ∧
           s.reads 1 = Except.error e)) :
    (measure s cfg groups).2 = Except.error (PyErr.fromSensor e) := by
  rcases hep : estimatePass s groups with ⟨tr1, e1⟩
  rcases h with h | ⟨h1, h2⟩ | ⟨h1, re, h2, h3⟩ | ⟨h1, re, tr2, mg, h2, h3, h4, h5⟩
  · replace h : e1 = some (PyErr.fromSensor e) := by rw [hep] at h; exact h
    subst h
    simp [measure, hep]
  · replace h1 : e1 = none := by rw [hep] at h1; exact h1
    subst h1
    simp [measure, hep, h2]
  · replace h1 : e1 = none := by rw [hep] at h1; exact h1
    subst h1
    rcases hgsp : gainSelectPass s cfg re groups 1 with ⟨tr2, r2⟩
    replace h3 : r2 = Except.error (PyErr.fromSensor e) := by rw [hgsp] at h3; exact h3
    subst h3
    simp [measure, hep, h2, hgsp]
  · replace h1 : e1 = none := by rw [hep] at h1; exact h1
    subst h1
    simp [measure, hep, h2, h3, h4, h5]

/-- Witness for C8: a sensor whose first `read_channels` raises `7`. -/
theorem measure_propagates_sensor_errors_witness :
    (measure demoSensorFail demoConfig [demoGroup]).2 =
      Except.error (PyErr.fromSensor 7) :=
  measure_propagates_sensor_errors demoSensorFail demoConfig [demoGroup] 7
    (Or.inr (Or.inl ⟨by norm_num [estimatePass, demoSensorFail, demoGroup, dictGet],
      rfl⟩))

/-- C2: when the refinement pass runs (`max_new_gain ≠ 1`) and `measure()`
returns, every channel of the refinement results whose saturation strictly
exceeds `MaxSaturation` is replaced in the returned dict by its complete
estimate-pass entry, while every other channel keeps its refinement-pass
entry. -/
theorem measure_saturation_guard_reverts {E : Type} (s : Sensor E) (cfg : Config)
    (groups : List ChannelGroup) (re res : Results) (tr2 : List SensorOp) (mg : ℚ)
    (out : Results)
    (h1 : (estimatePass s groups).2 = none)
    (h2 : s.reads 0 = Except.ok re)
    (h3 : gainSelectPass s cfg re groups 1 = (tr2, Except.ok mg))
    (h4 : mg ≠ 1)
    (h5 : s.reads 1 = Except.ok res)
    (h6 : (measure s cfg groups).2 = Except.ok out) :
    out.length = res.length ∧
    ∀ (i : ℕ) (n : String) (r : MeasurementResult), res[i]? = some (n, r) →
      (cfg.maxSaturation < r.saturation →
        ∃ r0, dictGet n re = some r0 ∧ out[i]? = some (n, r0)) ∧
      (¬ cfg.maxSaturation < r.saturation → out[i]? = some (n, r)) := by
  rcases hep : estimatePass s groups with ⟨tr1, e1⟩
  replace h1 : e1 = none := by rw [hep] at h1; exact h1
  subst h1
  have hguard : saturationGuard (E := E) cfg re res = Except.ok out := by
    simpa [measure, hep, h2, h3, h4, h5] using h6
  exact saturationGuard_ok_spec hguard

/-- Witness for C2 at the spec scenario: refinement saturation `0.95` on
channel `A` against `MaxSaturation = 0.9` reverts `A` to its estimate-pass
entry. -/
theorem measure_saturation_guard_reverts_witness :
    ∃ r0, dictGet "A" demoEstimateLow = some r0 ∧
      ([("A", mkResult (1/20) 1 (1/10)), ("B", mkResult (2/5) 2 (1/5))] :
        Results)[0]? = some ("A", r0) := by
  have h := measure_saturation_guard_reverts demoSensorSat demoConfig [demoGroup]
    demoEstimateLow demoRefineSat [SensorOp.setMode "A" 2 (1/5)] 4
    [("A", mkResult (1/20) 1 (1/10)), ("B", mkResult (2/5) 2 (1/5))]
    (by norm_num [estimatePass, demoSensorSat, demoGroup, dictGet])
    (by norm_num [demoSensorSat, demoEstimateLow, mkResult])
    (by norm_num [gainSelectPass, selectGain, groupSats, exceptMap, dictGet,
      pyMax, newGainOf, extraGainOf, demoSensorSat, demoConfig, demoGroup,
      demoEstimateLow, mkResult, List.filter, max_def])
    (by norm_num)
    (by norm_num [demoSensorSat, demoRefineSat, mkResult])
    (by norm_num [measure, estimatePass, gainSelectPass, selectGain, groupSats,
      exceptMap, dictGet, pyMax, newGainOf, extraGainOf, saturationGuard,
      guardChannel, demoSensorSat, demoConfig, demoGroup, demoEstimateLow,
      demoRefineSat, mkResult, List.filter, max_def])
  exact (h.2 0 "A" (mkResult (19/20) 2 (1/5))
    (by norm_num [demoRefineSat])).1 (by norm_num [mkResult, demoConfig])


end Envsensor
namespace Envsensor

/-- C10: during gain selection `measure()` performs exactly one
`set_channel_mode` call per channel group, carrying the selected entry's
settings — also for groups whose selected gain is `1`, and also when the
second pass is skipped afterwards: the trace is the estimate-pass calls, one
read, one `set_channel_mode` per group, and a second read only when some
group selected a gain other than `1`. -/
theorem measure_sets_mode_once_per_group {E : Type} (s : Sensor E) (cfg : Config)
    (groups : List ChannelGroup) (re : Results)
    (sels : List (String × ℚ × ℚ × ℚ))
    (hEst : (estimatePass s groups).2 = none)
    (hRead : s.reads 0 = Except.ok re)
    (hSel : exceptMap (selectGain (E := E) cfg re) groups = Except.ok sels)
    (hsm : ∀ n a t, s.setModeErr n a t = none) :
    List.Forall₂ (fun g x => selectGain (E := E) cfg re g = Except.ok x) groups sels ∧
    sels.length = groups.length ∧
    (measure s cfg groups).1 =
      (estimatePass s groups).1 ++ [SensorOp.read] ++
        sels.map (fun x => SensorOp.setMode x.1 x.2.2.1 x.2.2.2) ++
        (if (sels.map (fun x => x.2.1)).foldl max 1 = 1 then []
         else [SensorOp.read]) := by
  have hf2 := exceptMap_ok_iff.mp hSel
  refine ⟨hf2, (List.Forall₂.length_eq hf2).symm, ?_⟩
  rcases hep : estimatePass s groups with ⟨tr1, e1⟩
  replace hEst : e1 = none := by rw [hep] at hEst; exact hEst
  subst hEst
  have hgs := gainSelectPass_of_forall₂ hsm hf2 1
  by_cases hmg : (sels.map (fun x => x.2.1)).foldl max 1 = 1
  · simp [measure, hep, hRead, hgs, hmg]
  · cases hr1 : s.reads 1 with
    | error e => simp [measure, hep, hRead, hgs, hmg, hr1]
    | ok res => simp [measure, hep, hRead, hgs, hmg, hr1]

/-- Witness for C10 at the skip scenario: the selected gain is `1`, the second
pass is skipped, and the gain-1 setting is still re-applied once. -/
theorem measure_sets_mode_once_per_group_witness :
    (measure demoSensorHalf demoConfig [demoGroup]).1 =
      [SensorOp.setMode "A" 1 (1/10), SensorOp.read,
       SensorOp.setMode "A" 1 (1/10)] := by
  have h := measure_sets_mode_once_per_group demoSensorHalf demoConfig [demoGroup]
    demoEstimateHalf [("A", 1, 1, 1/10)]
    (by norm_num [estimatePass, demoSensorHalf, demoGroup, dictGet])
    (by norm_num [demoSensorHalf, demoEstimateHalf, mkResult])
    (by norm_num [exceptMap, selectGain, groupSats, dictGet, pyMax, newGainOf,
      extraGainOf, demoConfig, demoGroup, demoEstimateHalf, mkResult,
      List.filter, max_def])
    (fun n a t => rfl)
  rw [h.2.2]
  norm_num [estimatePass, demoSensorHalf, demoGroup, dictGet, max_def]

/-- C3: under a clean estimate pass, `measure()` skips the second
`read_channels` call and returns the estimate results exactly when every
group's selected gain equals `1` (gain-table keys are at least `1`, per the
driver contract); in the spec scenario (saturation `0.5` on both channels,
margin `0.5`) the selected gain stays `1`, the second pass is skipped, and
the estimate results are returned. -/
theorem measure_skips_second_pass_iff_gain_one :
    (∀ (s : Sensor Unit) (cfg : Config) (groups : List ChannelGroup) (re : Results)
        (sels : List (String × ℚ × ℚ × ℚ)),
      (estimatePass s groups).2 = none →
      s.reads 0 = Except.ok re →
      exceptMap (selectGain (E := Unit) cfg re) groups = Except.ok sels →
      (∀ n a t, s.setModeErr n a t = none) →
      (∀ g ∈ groups, ∀ kv ∈ g.gain_table, 1 ≤ kv.1) →
      (measure s cfg groups =
        ((estimatePass s groups).1 ++ [SensorOp.read] ++
          sels.map (fun x => SensorOp.setMode x.1 x.2.2.1 x.2.2.2),
         Except.ok re) ↔
        ∀ x ∈ sels, x.2.1 = 1)) ∧
    measure demoSensorHalf demoConfig [demoGroup] =
      ([SensorOp.setMode "A" 1 (1/10), SensorOp.read,
        SensorOp.setMode "A" 1 (1/10)],
       Except.ok demoEstimateHalf) := by
  constructor
  · intro s cfg groups re sels hEst hRead hSel hsm hKeys
    have hf2 := exceptMap_ok_iff.mp hSel
    rcases hep : estimatePass s groups with ⟨tr1, e1⟩
    replace hEst : e1 = none := by rw [hep] at hEst; exact hEst
    subst hEst
    have hgs := gainSelectPass_of_forall₂ hsm hf2 1
    have hge1 : ∀ x ∈ sels, 1 ≤ x.2.1 := by
      intro x hx
      obtain ⟨g, hgmem, hsel⟩ := forall₂_mem_right hf2 hx
      obtain ⟨sats, maxSat, _, _, _, _, hng, _, _⟩ :=
        selectGain_ok_spec
          (show selectGain (E := Unit) cfg re g =
            Except.ok (x.1, x.2.1, x.2.2.1, x.2.2.2) from hsel)
      rcases newGainOf_cases cfg maxSat g with hone | hmem2
      · rw [hng, hone]
      · rw [hng]
        obtain ⟨kv, hkv, hkveq⟩ := List.mem_map.mp hmem2
        rw [← hkveq]
        exact hKeys g hgmem kv hkv
    by_cases hmg : (sels.map (fun x => x.2.1)).foldl max 1 = 1
    · have hall : ∀ x ∈ sels, x.2.1 = 1 := by
        intro x hx
        have hle : x.2.1 ≤ (sels.map (fun x => x.2.1)).foldl max 1 :=
          foldl_max_of_mem (List.mem_map_of_mem _ hx) 1
        rw [hmg] at hle
        exact le_antisymm hle (hge1 x hx)
      refine iff_of_true ?_ hall
      simp [measure, hep, hRead, hgs, hmg]
    · have hnall : ¬ ∀ x ∈ sels, x.2.1 = 1 := by
        intro hall
        apply hmg
        apply foldl_max_of_le
        intro y hy
        obtain ⟨x, hx, rfl⟩ := List.mem_map.mp hy
        exact le_of_eq (hall x hx)
      refine iff_of_false ?_ hnall
      intro hEq
      have hm : (measure s cfg groups).1 =
          tr1 ++ [SensorOp.read] ++
            sels.map (fun x => SensorOp.setMode x.1 x.2.2.1 x.2.2.2) ++
            [SensorOp.read] := by
        cases hr1 : s.reads 1 with
        | error e => simp [measure, hep, hRead, hgs, hmg, hr1]
        | ok res => simp [measure, hep, hRead, hgs, hmg, hr1]
      have hfst := congrArg Prod.fst hEq
      rw [hm] at hfst
      have hlen := congrArg List.length hfst
      simp at hlen
  · norm_num [measure, estimatePass, gainSelectPass, selectGain, groupSats,
      exceptMap, dictGet, pyMax, newGainOf, extraGainOf, saturationGuard,
      guardChannel, demoSensorHalf, demoConfig, demoGroup, demoEstimateHalf,
      mkResult, List.filter, max_def]

/-- Witness for C3: in the skip scenario every selected gain equals `1`. -/
theorem measure_skips_second_pass_iff_gain_one_witness :
    ∀ x ∈ ([("A", 1, 1, 1/10)] : List (String × ℚ × ℚ × ℚ)), x.2.1 = 1 := by
  have h := (measure_skips_second_pass_iff_gain_one.1 demoSensorHalf demoConfig
    [demoGroup] demoEstimateHalf [("A", 1, 1, 1/10)]
    (by norm_num [estimatePass, demoSensorHalf, demoGroup, dictGet])
    (by norm_num [demoSensorHalf, demoEstimateHalf, mkResult])
    (by norm_num [exceptMap, selectGain, groupSats, dictGet, pyMax, newGainOf,
      extraGainOf, demoConfig, demoGroup, demoEstimateHalf, mkResult,
      List.filter, max_def])
    (fun n a t => rfl)
    (by
      intro g hg kv hkv
      rw [List.mem_singleton] at hg
      subst hg
      simp only [demoGroup] at hkv
      fin_cases hkv <;> norm_num)).mp
  apply h
  norm_num [measure, estimatePass, gainSelectPass, selectGain, groupSats,
    exceptMap, dictGet, pyMax, newGainOf, extraGainOf, saturationGuard,
    guardChannel, demoSensorHalf, demoConfig, demoGroup, demoEstimateHalf,
    mkResult, List.filter, max_def]

end Envsensor
